import Mathlib

/-!
Verification development for the bitmovin-fairplay-encoding repository.

The repository consists of three JavaScript orchestration scripts that drive a
remote video-encoding API:

* `src/index.js` — CENC DRM variant with a status-polling loop after the start
  request (`executeEncoding`, lines 216-231).
* `src/unnamed/part_000` — FairPlay variant that fetches key material from the
  EZDRM key-delivery service and splits the returned `KeyHEX` hex blob into a
  key and an initialization vector (lines 47-50).
* `src/unnamed/part_001` — CENC variant with three video renditions.

The definitions below are a shallow embedding of the parts of these files the
claims refer to: the polling loop and its surrounding control flow, the JS
string `slice` used for the key/IV split, the linear orchestration sequence of
each `main` function (modelled as a program of remote calls interpreted against
an arbitrary remote-API oracle), and the single Express route each file
registers.
-/

namespace FairplayEnc

/-! ### Status polling — `src/index.js`, `executeEncoding` (lines 208-231)

The Bitmovin task status enumeration (the remote service reports one of these
values on every status query). -/

inductive Status
  | created
  | queued
  | running
  | finished
  | error
  | canceled
deriving DecidableEq, Repr

/-- The task object returned by `bitmovinApi.encoding.encodings.status`:
a status value and an optional list of diagnostic messages
(`task.messages`, `undefined` modelled as `none`). -/
structure Task where
  status : Status
  messages : Option (List String)
deriving DecidableEq, Repr

/-- Errors that the polling code can throw: the `ReferenceError` raised by the
JavaScript runtime when the free identifier `Status` is resolved (it is bound
by no import or declaration in `src/index.js`), and the
`new Error('Encoding failed')` thrown on line 227. -/
inductive JsError
  | referenceErrorStatus
  | encodingFailed
deriving DecidableEq, Repr

/-- In `src/index.js` the identifier `Status` used on lines 223 and 225 is not
among the imports (lines 1-34) and is declared nowhere in the module, so it is
a free identifier: `false` records that no binding for it is in scope. -/
def statusInScope_indexJs : Bool := false

/-- The loop condition of the `do ... while` on line 223:
`task.status !== Status.FINISHED && task.status !== Status.ERROR`.
Evaluating it first reads `task.status` and then resolves the identifier
`Status`; when `Status` is not in scope the resolution throws a
`ReferenceError`, otherwise the two inequality tests are performed. -/
def evalWhileCond (statusInScope : Bool) (s : Status) : Except JsError Bool :=
  if statusInScope then
    Except.ok (decide (s ≠ Status.finished) && decide (s ≠ Status.error))
  else
    Except.error JsError.referenceErrorStatus

/-- The test on line 225: `task.status === Status.ERROR`. It also resolves the
identifier `Status` and therefore throws the same `ReferenceError` when
`Status` is not in scope. -/
def evalErrorCheck (statusInScope : Bool) (s : Status) : Except JsError Bool :=
  if statusInScope then
    Except.ok (decide (s = Status.error))
  else
    Except.error JsError.referenceErrorStatus

/-- `logTaskErrors` from `src/index.js` lines 212-214:
`const logTaskErrors = task => { if (task.messages == undefined) return; };`
The body consists solely of the early return; after the guard the function
ends, so it produces console output in neither branch. The returned list is
the console output the call produces. -/
def logTaskErrors (task : Task) : List String :=
  match task.messages with
  | none => []
  | some _ => []

/-- The `do ... while` polling loop of `executeEncoding` (lines 220-223).
`resp n` is the task returned by the `n`-th status query (the remote service
answers every query). `fuel` bounds the number of iterations we unfold; `k` is
the index of the next query. The result is `none` when the loop is still
running after `fuel` iterations, and otherwise `some (q, r)` where `q` is the
number of status queries issued and `r` is either the thrown error or the task
with which the loop exited normally. -/
def pollLoop (statusInScope : Bool) (resp : Nat → Task) :
    Nat → Nat → Option (Nat × Except JsError Task)
  | 0, _ => none
  | fuel + 1, k =>
    match evalWhileCond statusInScope (resp k).status with
    | Except.error e => some (k + 1, Except.error e)
    | Except.ok true => pollLoop statusInScope resp fuel (k + 1)
    | Except.ok false => some (k + 1, Except.ok (resp k))

/-- Observable outcome of `executeEncoding` after the start request: the number
of status queries issued, the console output produced, and whether the function
returned normally or threw. -/
structure ExecResult where
  queries : Nat
  logs : List String
  outcome : Except JsError Unit
deriving Repr

/-- `executeEncoding` from `src/index.js` lines 216-231, after the start call:
run the polling loop; if it exits normally, test `task.status === Status.ERROR`
(line 225) and either call `logTaskErrors` and throw `Error('Encoding failed')`
(lines 226-227) or log `'Encoding finished successfully'` (line 230). `none`
means the loop was still running after `fuel` iterations. -/
def executeEncoding (statusInScope : Bool) (resp : Nat → Task) (fuel : Nat) :
    Option ExecResult :=
  match pollLoop statusInScope resp fuel 0 with
  | none => none
  | some (q, Except.error e) => some ⟨q, [], Except.error e⟩
  | some (q, Except.ok task) =>
    match evalErrorCheck statusInScope task.status with
    | Except.error e => some ⟨q, [], Except.error e⟩
    | Except.ok true => some ⟨q, logTaskErrors task, Except.error JsError.encodingFailed⟩
    | Except.ok false => some ⟨q, ["Encoding finished successfully"], Except.ok ()⟩

/-- Status-response sequence whose first answer is already the terminal
`finished` value. -/
def respFinished : Nat → Task := fun _ => ⟨Status.finished, none⟩

/-- Status-response sequence that never reaches a terminal value: every query
answers `running`. -/
def respAllRunning : Nat → Task := fun _ => ⟨Status.running, none⟩

/-- Status-response sequence whose first terminal value is the `error` status,
reached at the second query: `running`, then `error` forever. -/
def respRunThenError : Nat → Task := fun n =>
  if n = 0 then ⟨Status.running, none⟩
  else ⟨Status.error, some ["Input file could not be read"]⟩

/-- Status-response sequence whose first answer is the terminal `error` status
with a nonempty diagnostic message list attached. -/
def respErrorNow : Nat → Task := fun _ =>
  ⟨Status.error, some ["Codec configuration rejected"]⟩

/-! ### EZDRM key/IV split — `src/unnamed/part_000` (lines 47-50) -/

/-- JavaScript `String.prototype.slice` for nonnegative arguments, the only
form the source uses (`slice(0, 32)` and `slice(32)`): both indices are clamped
to the string length, the end index defaults to the length, and the characters
of the half-open index range are returned. -/
def jsSlice (s : String) (start : Nat) (stop : Option Nat) : String :=
  String.mk ((s.data.take (min (stop.getD s.data.length) s.data.length)).drop
    (min start s.data.length))

/-- The `FairPlay` element of the XML response of the EZDRM key-delivery
endpoint, as read by `parser.parse(xmlData).FairPlay` (line 47): the fields the
source accesses, with the `KeyHEX` blob taken as a string. -/
structure FairPlayData where
  KeyHEX : String
  KeyUri : String
  AssetID : String
  KeyID : String
deriving DecidableEq, Repr

/-- Line 48: `const fairPlayKey = fairPlayData.KeyHEX.slice(0, 32);` -/
def fairPlayKey (d : FairPlayData) : String := jsSlice d.KeyHEX 0 (some 32)

/-- Line 49: `const fairPlayIv = fairPlayData.KeyHEX.slice(32);` -/
def fairPlayIv (d : FairPlayData) : String := jsSlice d.KeyHEX 32 none

/-- Line 50: `const fairPlayUri = fairPlayData.KeyUri;` -/
def fairPlayUri (d : FairPlayData) : String := d.KeyUri

/-- A key-delivery response whose `KeyHEX` field is a 48-character hex
string. -/
def sampleKeyData48 : FairPlayData :=
  ⟨"0123456789abcdef0123456789abcdef0123456789abcdef",
   "skd://fps.ezdrm.com/key", "asset1", "kid1"⟩

/-- A key-delivery response whose `KeyHEX` field is shorter than 32
characters. -/
def sampleKeyDataShort : FairPlayData :=
  ⟨"0123abcd", "skd://fps.ezdrm.com/key", "asset2", "kid2"⟩

/-! ### Orchestration sequence — `main` of `src/index.js` (lines 239-313) and
of `src/unnamed/part_001` (lines 234-323)

Each `main` is a straight line of awaited remote calls; each call receives the
ids of previously created resources. We model the remote API as an oracle that
maps the index of the call within the run and the call itself to either a fresh
resource id or a failure, and interpret the call sequence against it. -/

/-- The kinds of remote calls `main` issues, in the vocabulary of the wrapper
functions of the source. -/
inductive CallKind
  | createEncoding
  | createS3Input
  | createS3Output
  | createH264VideoConfig
  | createAacAudioConfig
  | createStream
  | createFmp4Muxing
  | createDrmConfig
  | createDashManifest
  | createHlsManifest
  | startEncoding
deriving DecidableEq, Repr

/-- A remote call as issued: its kind and the ids of the previously created
resources it references (for `createStream` the encoding, input and codec
configuration ids; for `createFmp4Muxing` the encoding and stream ids; for
`createDrmConfig` the encoding, muxing and output ids; for the manifests the
encoding and output ids; for `startEncoding` the encoding id and the two
manifest ids). -/
structure ApiCall where
  kind : CallKind
  argIds : List String
deriving DecidableEq, Repr

/-- One step of a `main` function: the kind of the call and, for each resource
id it passes to the remote API, the position of that resource in the list of
results of the preceding steps. -/
abbrev Step := CallKind × List Nat

/-- Build the concrete call of a step from the result ids accumulated so
far. -/
def mkCall (kind : CallKind) (deps : List Nat) (ids : List String) : ApiCall :=
  ⟨kind, deps.map fun i => ids.getD i ""⟩

/-- Interpret a straight-line call sequence against a remote-API oracle `api`
(call index and call to result id or failure). Each call is awaited: on success
its id is appended to the environment and the next step runs; a failed call is
the last call issued (the thrown rejection propagates out of `main`, so no
subsequent call executes, nothing is retried and nothing is cleaned up). The
result is the list of calls issued, in order, and whether the run completed. -/
def runProg (api : Nat → ApiCall → Except Unit String) :
    List Step → Nat → List String → List ApiCall × Bool
  | [], _, _ => ([], true)
  | (kind, deps) :: rest, k, ids =>
    match api k (mkCall kind deps ids) with
    | Except.error _ => ([mkCall kind deps ids], false)
    | Except.ok rid =>
      let r := runProg api rest (k + 1) (ids ++ [rid])
      (mkCall kind deps ids :: r.1, r.2)

/-- The call sequence of `main` in `src/index.js` (lines 239-313). Result
positions: 0 encoding, 1 input, 2 output, 3 video config, 4 audio config,
5 video stream, 6 audio stream, 7 video muxing, 8 audio muxing, 9-10 DRM
attachments, 11 DASH manifest, 12 HLS manifest; the start request references
the encoding and both manifests. -/
def mainSteps_index : List Step :=
  [(CallKind.createEncoding, []),
   (CallKind.createS3Input, []),
   (CallKind.createS3Output, []),
   (CallKind.createH264VideoConfig, []),
   (CallKind.createAacAudioConfig, []),
   (CallKind.createStream, [0, 1, 3]),
   (CallKind.createStream, [0, 1, 4]),
   (CallKind.createFmp4Muxing, [0, 5]),
   (CallKind.createFmp4Muxing, [0, 6]),
   (CallKind.createDrmConfig, [0, 7, 2]),
   (CallKind.createDrmConfig, [0, 8, 2]),
   (CallKind.createDashManifest, [0, 2]),
   (CallKind.createHlsManifest, [0, 2]),
   (CallKind.startEncoding, [0, 11, 12])]

/-- The call sequence of `main` in `src/unnamed/part_001` (lines 234-323), with
three video renditions. Result positions: 0 encoding, 1 input, 2 output,
3-5 video configs, 6 audio config, 7-9 video streams, 10 audio stream,
11-13 video muxings, 14 audio muxing, 15-18 DRM attachments, 19 DASH manifest,
20 HLS manifest. -/
def mainSteps_part001 : List Step :=
  [(CallKind.createEncoding, []),
   (CallKind.createS3Input, []),
   (CallKind.createS3Output, []),
   (CallKind.createH264VideoConfig, []),
   (CallKind.createH264VideoConfig, []),
   (CallKind.createH264VideoConfig, []),
   (CallKind.createAacAudioConfig, []),
   (CallKind.createStream, [0, 1, 3]),
   (CallKind.createStream, [0, 1, 4]),
   (CallKind.createStream, [0, 1, 5]),
   (CallKind.createStream, [0, 1, 6]),
   (CallKind.createFmp4Muxing, [0, 7]),
   (CallKind.createFmp4Muxing, [0, 8]),
   (CallKind.createFmp4Muxing, [0, 9]),
   (CallKind.createFmp4Muxing, [0, 10]),
   (CallKind.createDrmConfig, [0, 11, 2]),
   (CallKind.createDrmConfig, [0, 12, 2]),
   (CallKind.createDrmConfig, [0, 13, 2]),
   (CallKind.createDrmConfig, [0, 14, 2]),
   (CallKind.createDashManifest, [0, 2]),
   (CallKind.createHlsManifest, [0, 2]),
   (CallKind.startEncoding, [0, 19, 20])]

/-- `beforeAll a b ks` holds when, in the kind sequence `ks`, every occurrence
of kind `a` is at a strictly smaller position than every occurrence of kind
`b`. -/
def beforeAll (a b : CallKind) (ks : List CallKind) : Bool :=
  (List.range ks.length).all fun i =>
    (List.range ks.length).all fun j =>
      decide (ks.getD i CallKind.startEncoding = a →
        ks.getD j CallKind.startEncoding = b → i < j)

/-- The dependency pairs of the claim: encoding before any stream, every stream
before any muxing, every muxing before any DRM attachment, DRM attachments
before each manifest, and both manifests before the start request. -/
def depPairs : List (CallKind × CallKind) :=
  [(CallKind.createEncoding, CallKind.createStream),
   (CallKind.createStream, CallKind.createFmp4Muxing),
   (CallKind.createFmp4Muxing, CallKind.createDrmConfig),
   (CallKind.createDrmConfig, CallKind.createDashManifest),
   (CallKind.createDrmConfig, CallKind.createHlsManifest),
   (CallKind.createDashManifest, CallKind.startEncoding),
   (CallKind.createHlsManifest, CallKind.startEncoding)]

/-- A call trace respects the declared dependency order when every dependency
pair is ordered in it. -/
def respectsDepOrder (tr : List ApiCall) : Bool :=
  depPairs.all fun p => beforeAll p.1 p.2 (tr.map ApiCall.kind)

/-- A remote-API oracle that answers the first three calls of a run with a
fresh id and fails the fourth. -/
def apiFailAt3 : Nat → ApiCall → Except Unit String := fun i _ =>
  if i < 3 then Except.ok "id" else Except.error ()

/-! ### HTTP server surface — `app.get` in `src/index.js` (lines 473-475),
`src/unnamed/part_000` (lines 306-308) and `src/unnamed/part_001`
(lines 327-329) -/

inductive HttpMethod
  | GET
  | POST
deriving DecidableEq, Repr

/-- An incoming HTTP request: the orchestration scripts never read any part of
it, but we carry its path, query string and body so that independence from the
request content is a statement and not a triviality of the type. -/
structure HttpRequest where
  path : String
  query : String
  body : String
deriving DecidableEq, Repr

/-- What `res.send` is called with: a text body (`'Working...'`) or the
serialized fresh `new CencDrm()` object of `src/unnamed/part_000`. -/
inductive HttpResponse
  | text (body : String)
  | emptyCencDrmObject
deriving DecidableEq, Repr

/-- A registered Express route: method, path, and handler. The handler takes
only the request — the scripts install it once at module load and it closes
over no mutable orchestration state. -/
structure Route where
  method : HttpMethod
  path : String
  handler : HttpRequest → HttpResponse

def defaultRoute : Route := ⟨HttpMethod.GET, "", fun _ => HttpResponse.text ""⟩

/-- The complete route table of `src/index.js`: the single registration
`app.get('/', async (req, res) => { res.send('Working...'); })`. -/
def appRoutes_index : List Route :=
  [⟨HttpMethod.GET, "/", fun _ => HttpResponse.text "Working..."⟩]

/-- The complete route table of `src/unnamed/part_000`: the single registration
`app.get('/', async (req, res) => { res.send(new CencDrm()); })`. -/
def appRoutes_part000 : List Route :=
  [⟨HttpMethod.GET, "/", fun _ => HttpResponse.emptyCencDrmObject⟩]

/-! ## Theorems -/

/-! ### Helper lemmas -/

lemma str_ext (a b : String) (h : a.data = b.data) : a = b := by
  cases a
  cases b
  exact congrArg String.mk h

lemma data_append (a b : String) : (a ++ b).data = a.data ++ b.data := by
  cases a
  cases b
  rfl

lemma length_mk (l : List Char) : (String.mk l).length = l.length := rfl

lemma strLength_eq (s : String) : s.length = s.data.length := rfl

/-- The two slices of lines 48-49 of `src/unnamed/part_000` always reassemble
the whole `KeyHEX` string, whatever its length. -/
lemma key_iv_append (d : FairPlayData) :
    fairPlayKey d ++ fairPlayIv d = d.KeyHEX := by
  apply str_ext
  rw [data_append]
  simp only [fairPlayKey, fairPlayIv, jsSlice, Option.getD_none, Option.getD_some,
    Nat.min_self, List.take_length, Nat.zero_min, List.drop_zero]
  exact List.take_append_drop _ _

/-- Claim C9: in `src/index.js` the loop condition of `executeEncoding`
references the identifier `Status`, which is never imported or defined in the
file; therefore for every status response received, evaluating the loop
condition raises an error, and the success branch (the
`'Encoding finished successfully'` report) is unreachable: for every response
sequence, the run issues exactly one status query, produces no console output,
and throws the `ReferenceError`. -/
theorem c9_unbound_status_makes_success_unreachable :
    (∀ s : Status, evalWhileCond statusInScope_indexJs s =
      Except.error JsError.referenceErrorStatus) ∧
    ∀ (resp : Nat → Task) (fuel : Nat),
      executeEncoding statusInScope_indexJs resp (fuel + 1) =
        some ⟨1, [], Except.error JsError.referenceErrorStatus⟩ :=
  ⟨fun _ => rfl, fun _ _ => rfl⟩

/-- Claim C1, evaluation at the failing input: on a response sequence whose
very first status is the terminal `finished` value, `executeEncoding` of
`src/index.js` does not report success — it issues one status query, logs
nothing, and throws the `ReferenceError` caused by the unbound identifier
`Status` in the loop condition. -/
theorem c1_finished_input_throws_instead_of_success :
    respFinished 0 = ⟨Status.finished, none⟩ ∧
    executeEncoding statusInScope_indexJs respFinished 2 =
      some ⟨1, [], Except.error JsError.referenceErrorStatus⟩ :=
  ⟨rfl, rfl⟩

/-- Claim C3, evaluation at the failing input: on a first response whose status
is the terminal `error` value with diagnostic messages attached, the run of
`src/index.js` produces no console output of those messages: the loop condition
throws the `ReferenceError` before the error branch is reached; and even under
a binding for `Status` (the intended import), `logTaskErrors` — whose body is
only the `task.messages == undefined` early return — logs nothing for any task,
so the `Error('Encoding failed')` is thrown with empty console output. -/
theorem c3_task_errors_never_reported :
    (∀ t : Task, logTaskErrors t = []) ∧
    (respErrorNow 0).status = Status.error ∧
    (respErrorNow 0).messages = some ["Codec configuration rejected"] ∧
    executeEncoding statusInScope_indexJs respErrorNow 2 =
      some ⟨1, [], Except.error JsError.referenceErrorStatus⟩ ∧
    executeEncoding true respErrorNow 2 =
      some ⟨1, [], Except.error JsError.encodingFailed⟩ := by
  refine ⟨fun t => ?_, rfl, rfl, rfl, rfl⟩
  cases h : t.messages <;> simp [logTaskErrors, h]

/-- Claim C5, evaluation at the failing input: on the response sequence
`running, error, error, ...` (first terminal value is the `error` status, at
the second query), `executeEncoding` of `src/index.js` stops after the first
query — before ever observing the error status — because the loop condition
throws the `ReferenceError`; the thrown failure is that `ReferenceError`, not
the `Error('Encoding failed')` of the error branch. -/
theorem c5_stops_before_observing_error_status :
    (respRunThenError 0).status = Status.running ∧
    (respRunThenError 1).status = Status.error ∧
    ∀ fuel : Nat,
      executeEncoding statusInScope_indexJs respRunThenError (fuel + 1) =
        some ⟨1, [], Except.error JsError.referenceErrorStatus⟩ :=
  ⟨rfl, rfl, fun _ => rfl⟩

/-- Claim C7, evaluation at the failing input: on the response sequence that
answers `running` to every query — no terminal value ever appears — the polling
loop of `src/index.js` nevertheless terminates, after a single query, for every
iteration bound: the loop condition throws the `ReferenceError`, so no
execution of the loop runs indefinitely. -/
theorem c7_loop_terminates_even_without_terminal_status :
    (∀ n : Nat, (respAllRunning n).status ≠ Status.finished ∧
      (respAllRunning n).status ≠ Status.error) ∧
    ∀ fuel : Nat,
      pollLoop statusInScope_indexJs respAllRunning (fuel + 1) 0 =
        some (1, Except.error JsError.referenceErrorStatus) ∧
      executeEncoding statusInScope_indexJs respAllRunning (fuel + 1) =
        some ⟨1, [], Except.error JsError.referenceErrorStatus⟩ :=
  ⟨fun _ => by constructor <;> simp [respAllRunning], fun _ => ⟨rfl, rfl⟩⟩

lemma getD_append_left (l t : List CallKind) (d : CallKind) :
    ∀ i, i < l.length → (l ++ t).getD i d = l.getD i d := by
  induction l with
  | nil =>
    intro i h
    exact absurd h (Nat.not_lt_zero i)
  | cons a l ih =>
    intro i h
    cases i with
    | zero => rfl
    | succ n => exact ih n (Nat.lt_of_succ_lt_succ h)

/-- Whatever the remote API answers, the sequence of call kinds a run issues is
an initial segment of the call-kind sequence of the program. -/
lemma runProg_kinds_pre (api : Nat → ApiCall → Except Unit String) :
    ∀ (prog : List Step) (k : Nat) (ids : List String),
      ∃ t, (runProg api prog k ids).1.map ApiCall.kind ++ t = prog.map Prod.fst := by
  intro prog
  induction prog with
  | nil =>
    intro k ids
    exact ⟨[], rfl⟩
  | cons step rest ih =>
    intro k ids
    obtain ⟨kind, deps⟩ := step
    cases hcall : api k (mkCall kind deps ids) with
    | error e =>
      refine ⟨rest.map Prod.fst, ?_⟩
      simp only [runProg, hcall]
      simp [mkCall]
    | ok rid =>
      obtain ⟨t, ht⟩ := ih (k + 1) (ids ++ [rid])
      refine ⟨t, ?_⟩
      simp only [runProg, hcall]
      simp [mkCall, ht]

lemma beforeAll_iff (a b : CallKind) (ks : List CallKind) :
    beforeAll a b ks = true ↔
      ∀ i, i < ks.length → ∀ j, j < ks.length →
        ks.getD i CallKind.startEncoding = a →
        ks.getD j CallKind.startEncoding = b → i < j := by
  simp only [beforeAll, List.all_eq_true, List.mem_range, decide_eq_true_eq]

lemma beforeAll_of_pre (a b : CallKind) (ks L : List CallKind)
    (h : ∃ t, ks ++ t = L) (hL : beforeAll a b L = true) :
    beforeAll a b ks = true := by
  obtain ⟨t, rfl⟩ := h
  rw [beforeAll_iff] at hL ⊢
  intro i hi j hj ha hb
  have hi2 : i < (ks ++ t).length := by
    rw [List.length_append]
    omega
  have hj2 : j < (ks ++ t).length := by
    rw [List.length_append]
    omega
  exact hL i hi2 j hj2
    (by rw [getD_append_left ks t _ i hi]; exact ha)
    (by rw [getD_append_left ks t _ j hj]; exact hb)

/-- If the remote API answers the first `j` calls of a run and fails the next
one, the run issues exactly the first `j + 1` calls — the failing call is not
retried and nothing after it executes — and the run does not complete. -/
lemma runProg_fail_at (api : Nat → ApiCall → Except Unit String) :
    ∀ (prog : List Step) (j k : Nat) (ids : List String),
      j < prog.length →
      (∀ i c, i < j → ∃ s, api (k + i) c = Except.ok s) →
      (∀ c, api (k + j) c = Except.error ()) →
      (runProg api prog k ids).1.length = j + 1 ∧
        (runProg api prog k ids).2 = false := by
  intro prog
  induction prog with
  | nil =>
    intro j k ids hj _ _
    exact absurd hj (Nat.not_lt_zero j)
  | cons step rest ih =>
    intro j k ids hj hok hfail
    obtain ⟨kind, deps⟩ := step
    cases j with
    | zero =>
      have h0 : api k (mkCall kind deps ids) = Except.error () :=
        hfail (mkCall kind deps ids)
      constructor <;> simp [runProg, h0]
    | succ j =>
      obtain ⟨s, hs⟩ := hok 0 (mkCall kind deps ids) (Nat.succ_pos j)
      have hs2 : api k (mkCall kind deps ids) = Except.ok s := hs
      have ihr := ih j (k + 1) (ids ++ [s])
        (Nat.lt_of_succ_lt_succ hj)
        (fun i c hi => by
          have hx := hok (i + 1) c (Nat.succ_lt_succ hi)
          rwa [show k + (i + 1) = k + 1 + i by omega] at hx)
        (fun c => by
          have hx := hfail c
          rwa [show k + (j + 1) = k + 1 + j by omega] at hx)
      constructor <;> simp [runProg, hs2, ihr.1, ihr.2]

/-- Claim C2: given a key-delivery XML response whose `KeyHEX` field is a
48-character hex string, the key/IV split of `src/unnamed/part_000`
(lines 48-49) yields the first 32 characters as the key and the remaining 16
characters as the initialization vector. -/
theorem c2_key_iv_split_48 (d : FairPlayData) (h : d.KeyHEX.length = 48) :
    fairPlayKey d = String.mk (d.KeyHEX.data.take 32) ∧
    fairPlayIv d = String.mk (d.KeyHEX.data.drop 32) ∧
    (fairPlayKey d).length = 32 ∧
    (fairPlayIv d).length = 16 ∧
    fairPlayKey d ++ fairPlayIv d = d.KeyHEX := by
  have hl : d.KeyHEX.data.length = 48 := h
  refine ⟨?_, ?_, ?_, ?_, key_iv_append d⟩
  · simp [fairPlayKey, jsSlice, hl]
  · apply str_ext
    simp only [fairPlayIv, jsSlice, Option.getD_none, Nat.min_self, List.take_length]
    rw [hl]
    norm_num
  · simp [fairPlayKey, jsSlice, hl, length_mk]
  · simp [fairPlayIv, jsSlice, hl, length_mk]

/-- Claim C2, witness: the split at a concrete 48-character `KeyHEX`. -/
theorem c2_key_iv_split_48_witness :
    fairPlayKey sampleKeyData48 =
      String.mk (sampleKeyData48.KeyHEX.data.take 32) ∧
    fairPlayIv sampleKeyData48 =
      String.mk (sampleKeyData48.KeyHEX.data.drop 32) ∧
    (fairPlayKey sampleKeyData48).length = 32 ∧
    (fairPlayIv sampleKeyData48).length = 16 ∧
    fairPlayKey sampleKeyData48 ++ fairPlayIv sampleKeyData48 =
      sampleKeyData48.KeyHEX :=
  c2_key_iv_split_48 sampleKeyData48 (by decide)

/-- Claim C10: for every string value of the `KeyHEX` field (not only
48-character ones), the extracted key concatenated with the extracted IV equals
`KeyHEX` exactly; in particular, if `KeyHEX` has fewer than 32 characters the
key is the whole string and the IV is the empty string, and no error is
raised — both slices are total. -/
theorem c10_key_iv_concat_exact (d : FairPlayData) :
    fairPlayKey d ++ fairPlayIv d = d.KeyHEX ∧
    (d.KeyHEX.length < 32 →
      fairPlayKey d = d.KeyHEX ∧ fairPlayIv d = "") := by
  have hlen : ∀ h : d.KeyHEX.length < 32, d.KeyHEX.data.length < 32 := fun h => h
  refine ⟨key_iv_append d, fun h => ⟨?_, ?_⟩⟩
  · have hm : min 32 d.KeyHEX.data.length = d.KeyHEX.data.length := by
      have := hlen h
      omega
    apply str_ext
    simp [fairPlayKey, jsSlice, hm]
    exact Nat.le_of_lt h
  · have hm : min 32 d.KeyHEX.data.length = d.KeyHEX.data.length := by
      have := hlen h
      omega
    apply str_ext
    simp [fairPlayIv, jsSlice, hm]
    exact Nat.le_of_lt h

/-- Claim C10, witness: the concatenation identity and the short-string case at
a concrete 8-character `KeyHEX`. -/
theorem c10_key_iv_concat_exact_witness :
    (fairPlayKey sampleKeyDataShort ++ fairPlayIv sampleKeyDataShort =
      sampleKeyDataShort.KeyHEX) ∧
    (fairPlayKey sampleKeyDataShort = sampleKeyDataShort.KeyHEX ∧
      fairPlayIv sampleKeyDataShort = "") :=
  ⟨(c10_key_iv_concat_exact sampleKeyDataShort).1,
   (c10_key_iv_concat_exact sampleKeyDataShort).2 (by decide)⟩

/-- Claim C4: for every run — whatever the remote API answers, including runs
cut short by a failure — the resource-creation calls of `main` occur in the
declared dependency order: the encoding is created before any stream, every
stream before any muxing, every muxing before any DRM attachment, DRM
attachments before the manifests, and both manifests before the start request
is submitted; in both `src/index.js` and `src/unnamed/part_001`. -/
theorem c4_calls_in_dependency_order :
    ∀ api : Nat → ApiCall → Except Unit String,
      respectsDepOrder (runProg api mainSteps_index 0 []).1 = true ∧
      respectsDepOrder (runProg api mainSteps_part001 0 []).1 = true := by
  have base1 : ∀ p ∈ depPairs,
      beforeAll p.1 p.2 (mainSteps_index.map Prod.fst) = true := by decide
  have base2 : ∀ p ∈ depPairs,
      beforeAll p.1 p.2 (mainSteps_part001.map Prod.fst) = true := by decide
  intro api
  constructor
  · rw [respectsDepOrder, List.all_eq_true]
    intro p hp
    exact beforeAll_of_pre p.1 p.2 _ _
      (runProg_kinds_pre api mainSteps_index 0 []) (base1 p hp)
  · rw [respectsDepOrder, List.all_eq_true]
    intro p hp
    exact beforeAll_of_pre p.1 p.2 _ _
      (runProg_kinds_pre api mainSteps_part001 0 []) (base2 p hp)

/-- Claim C6: for every run of either `main` and every remote call of the
orchestration sequence, if that call returns a failure then no subsequent call
of the sequence is executed in that run: exactly the calls up to and including
the failing one are issued (so the failing call is not retried, and no
compensation or cleanup call follows — the call vocabulary contains no deletion
at all), and the run does not complete. -/
theorem c6_failed_call_stops_run (prog : List Step)
    (_hprog : prog = mainSteps_index ∨ prog = mainSteps_part001)
    (api : Nat → ApiCall → Except Unit String) (j : Nat)
    (hj : j < prog.length)
    (hok : ∀ i c, i < j → ∃ s, api i c = Except.ok s)
    (hfail : ∀ c, api j c = Except.error ()) :
    (runProg api prog 0 []).1.length = j + 1 ∧
      (runProg api prog 0 []).2 = false :=
  runProg_fail_at api prog j 0 []
    hj
    (fun i c hi => by rw [Nat.zero_add]; exact hok i c hi)
    (fun c => by rw [Nat.zero_add]; exact hfail c)

/-- Claim C6, witness: against an oracle that fails the fourth call of the run,
`main` of `src/index.js` issues exactly four calls and does not complete. -/
theorem c6_failed_call_stops_run_witness :
    (runProg apiFailAt3 mainSteps_index 0 []).1.length = 3 + 1 ∧
      (runProg apiFailAt3 mainSteps_index 0 []).2 = false :=
  c6_failed_call_stops_run mainSteps_index (Or.inl rfl) apiFailAt3 3
    (by decide)
    (fun i c hi => ⟨"id", by simp [apiFailAt3, hi]⟩)
    (fun c => by simp [apiFailAt3])

/-- Claim C8: each of `src/index.js` and `src/unnamed/part_000` registers
exactly one route, it is a GET route on `/`, and its handler returns the same
fixed static/demo value for every request — independent of the request's
content, and of orchestration progress, since the handler reads no state. -/
theorem c8_single_constant_get_route :
    appRoutes_index.length = 1 ∧
    (appRoutes_index.getD 0 defaultRoute).method = HttpMethod.GET ∧
    (appRoutes_index.getD 0 defaultRoute).path = "/" ∧
    (∀ q : HttpRequest, (appRoutes_index.getD 0 defaultRoute).handler q =
      HttpResponse.text "Working...") ∧
    appRoutes_part000.length = 1 ∧
    (appRoutes_part000.getD 0 defaultRoute).method = HttpMethod.GET ∧
    (appRoutes_part000.getD 0 defaultRoute).path = "/" ∧
    ∀ q : HttpRequest, (appRoutes_part000.getD 0 defaultRoute).handler q =
      HttpResponse.emptyCencDrmObject :=
  ⟨rfl, rfl, rfl, fun _ => rfl, rfl, rfl, rfl, fun _ => rfl⟩

end FairplayEnc
